import Mathlib

/-!
# Verification of the NEEMA invitation-acceptance and seat-limit core

Shallow embedding of the Python backend's invitation-acceptance engine
(`app/api/v1/tenant_invitations.py`), the tier seat-limit policy
(`app/core/tier_limits.py`, `app/core/tier_resolver.py`), the membership
counting CRUD helpers (`app/crud/tenant_membership.py`) and the RBAC
permission checker (`app/auth/permissions.py`).

Conventions of the embedding:
* Database UUIDs are modelled as `Nat`; timestamps as `Int`.
* Python `str` is modelled as Lean `String`; the Python string methods
  `strip` / `lower` / `upper` are modelled character-wise (`pyStrip`,
  `pyLower`, `pyUpper`), which agrees with Python on ASCII data.
* The three ORM tables (tenants, tenant_invitations, tenant_memberships)
  are lists of rows; a SQLAlchemy `scalar_one_or_none` lookup is `List.find?`,
  a `count` query is `List.filter` + `length`.
* The request handler `accept_tenant_invitation` raises `HTTPException`s
  before performing any ORM mutation and commits once at the end; the
  enclosing transaction rolls back on abandonment.  The embedding `accept`
  therefore returns the unchanged database state on every error path.
-/

deriving instance DecidableEq for Except

namespace Neema

/-! ## Python string primitives (ASCII-faithful) -/

/-- Python `str.strip()`: drop whitespace from both ends. -/
def pyStrip (s : String) : String :=
  String.mk (((s.toList.dropWhile Char.isWhitespace).reverse.dropWhile Char.isWhitespace).reverse)

/-- Python `str.lower()` (ASCII). -/
def pyLower (s : String) : String :=
  String.mk (s.toList.map Char.toLower)

/-- Python `str.upper()` (ASCII). -/
def pyUpper (s : String) : String :=
  String.mk (s.toList.map Char.toUpper)

/-! ## Data model (`app/models/*.py`) -/

/-- Row of table `tenants` (`app/models/tenant.py`); `tier` is a non-null
string column (default `"sungura"`). Only the columns the acceptance engine
reads are modelled. -/
structure Tenant where
  id : Nat
  tier : String
  deriving Repr, DecidableEq

/-- Row of table `tenant_invitations` (`app/models/tenant_invitation.py`).
`role` is modelled as `Option String` because `_normalize_role` accepts
`str | None`. -/
structure Invitation where
  id : Nat
  tenantId : Nat
  email : String
  role : Option String
  permissions : List String
  token : String
  expiresAt : Int
  acceptedAt : Option Int
  acceptedByUserId : Option Nat
  deriving Repr, DecidableEq

/-- Row of table `tenant_memberships` (`app/models/tenant_membership.py`). -/
structure Membership where
  tenantId : Nat
  userId : Nat
  role : String
  permissions : List String
  acceptedTerms : Bool
  notificationsOptIn : Option Bool
  isActive : Bool
  referralCode : Option String
  deriving Repr, DecidableEq

/-- Row of table `users` (`app/models/user.py`); `email` is non-null. -/
structure User where
  id : Nat
  email : String
  deriving Repr, DecidableEq

/-- The relational state visible to the acceptance engine. -/
structure DBState where
  tenants : List Tenant
  invitations : List Invitation
  memberships : List Membership
  deriving Repr, DecidableEq

/-! ## Tier limits (`app/core/tier_limits.py`) -/

/-- `normalize_tier(value) = (value or "").strip().lower()`. -/
def normalizeTier (value : Option String) : String :=
  pyLower (pyStrip (value.getD ""))

/-- `TIER_STAFF_LIMITS`: sungura ↦ 1, swara ↦ 4, ndovu ↦ 9 (`max_staff`). -/
def TIER_STAFF_LIMITS : List (String × Nat) :=
  [("sungura", 1), ("swara", 4), ("ndovu", 9)]

/-- `get_staff_limit_for_tier`: table lookup on the normalized tier,
defaulting to the `"sungura"` entry when the tier is unknown. -/
def getStaffLimitForTier (tier : Option String) : Nat :=
  let t := normalizeTier tier
  match TIER_STAFF_LIMITS.lookup t with
  | some v => v
  | none => (TIER_STAFF_LIMITS.lookup "sungura").getD 0

/-- `get_admin_limit_for_tier`: policy is 1 ADMIN for all tiers. -/
def getAdminLimitForTier (_tier : Option String) : Nat := 1

/-- `tier_to_str` applied to the non-null string column `tenants.tier`
(plain strings have no `.value` attribute, so only the
`return s if s else None` branch is live). -/
def tierToStr (s : String) : Option String :=
  if s = "" then none else some s

/-- `resolve_effective_tier` (`app/core/tier_resolver.py`): the `Tenant`
model has none of the probed `subscription_*` attributes, so every
`getattr(..., None)` yields `None` and the function falls through to
`tier_to_str(getattr(tenant, "tier", None))`. -/
def resolveEffectiveTier (tenant : Tenant) : Option String :=
  tierToStr tenant.tier

/-! ## Acceptance engine (`app/api/v1/tenant_invitations.py`) -/

/-- `_normalize_email(email) = email.strip().lower()`. -/
def normalizeEmail (email : String) : String :=
  pyLower (pyStrip email)

/-- `_normalize_role(role) = (role or "STAFF").strip().upper()`.
A `None` role and an empty-string role (both falsy in Python) fall back to
`"STAFF"`; any other string is trimmed and upper-cased as is. -/
def normalizeRole (role : Option String) : String :=
  pyUpper (pyStrip (match role with
    | none => "STAFF"
    | some s => if s = "" then "STAFF" else s))

/-- `ALLOWED_INVITE_ROLES = {"ADMIN", "STAFF"}`. -/
def ALLOWED_INVITE_ROLES : List String := ["ADMIN", "STAFF"]

/-- The request body `AcceptTenantInvite` (`app/schemas/tenant_invitation.py`). -/
structure AcceptPayload where
  token : String
  acceptTos : Bool
  acceptNotifications : Option Bool
  deriving Repr, DecidableEq

/-- The `HTTPException`s raised by `accept_tenant_invitation`, with their
structured `detail` payloads. `seatLimitExceeded code message tier limit count countField`
models `{"error": code, "message": message, "tier": tier, "limit": limit,
countField: count}`. -/
inductive AcceptError where
  | badRequest (detail : String)
  | notFound (detail : String)
  | conflict (detail : String)
  | emailMismatch (code message invitedEmail currentEmail : String)
  | seatLimitExceeded (code message : String) (tier : Option String)
      (limit activeCount : Nat) (countField : String)
  deriving Repr, DecidableEq

/-- HTTP status code attached to each raised exception in the handler. -/
def httpStatus : AcceptError → Nat
  | .badRequest _ => 400
  | .notFound _ => 404
  | .conflict _ => 409
  | .emailMismatch _ _ _ _ => 403
  | .seatLimitExceeded _ _ _ _ _ _ => 403

/-- The success body returned by the handler. -/
structure AcceptResponse where
  status : String
  tenantId : Nat
  userId : Nat
  role : String
  deriving Repr, DecidableEq

/-- Message of the STAFF seat-limit error body. -/
def staffLimitMessage : String :=
  "Staff limit exceeded for this tenant tier. Upgrade your plan to add more staff."

/-- Message of the ADMIN seat-limit error body. -/
def adminLimitMessage : String :=
  "Admin limit exceeded for this tenant plan."

/-- Message of the email-mismatch error body. -/
def emailMismatchMessage : String :=
  "You are signed in with a different email than the invitation."

/-- `select(TenantInvitation).where(token == token).with_for_update()`,
`scalar_one_or_none()`. -/
def findInvitationByToken (s : DBState) (token : String) : Option Invitation :=
  s.invitations.find? (fun i => i.token == token)

/-- `select(Tenant).where(Tenant.id == tid).with_for_update()`, `scalar_one_or_none()`. -/
def findTenantById (s : DBState) (tid : Nat) : Option Tenant :=
  s.tenants.find? (fun t => t.id == tid)

/-- `_count_active_role`: count of memberships of the tenant with
`is_active` and the given role. -/
def countActiveRole (s : DBState) (tenantId : Nat) (role : String) : Nat :=
  (s.memberships.filter
    (fun m => m.tenantId == tenantId && m.isActive && m.role == role)).length

/-- The `existing_active_admin` / `existing_active_staff` probe:
`select(TenantMembership).where(tenant, user, active, role)` is non-empty. -/
def hasActiveRoleMembership (s : DBState) (tenantId userId : Nat) (role : String) : Bool :=
  s.memberships.any
    (fun m => m.tenantId == tenantId && m.userId == userId && m.isActive && m.role == role)

/-- The handler's active-count computation for a role: count all active
memberships of the role, then `max(0, count - 1)` when the acting user
already holds that active role. -/
def adjustedActiveCount (s : DBState) (tenantId userId : Nat) (role : String) : Nat :=
  let c := countActiveRole s tenantId role
  if hasActiveRoleMembership s tenantId userId role then max 0 (c - 1) else c

/-- The two seat-limit blocks of `accept_tenant_invitation` (they are
mutually exclusive since `invite_role` is a single string). Returns the
exception to raise, if any. -/
def seatLimitCheck (s : DBState) (u : User) (tenant : Tenant) (tierStr : Option String)
    (inviteRole : String) : Option AcceptError :=
  if inviteRole = "ADMIN" then
    let limitAdmin := getAdminLimitForTier tierStr
    let c := adjustedActiveCount s tenant.id u.id "ADMIN"
    if c ≥ limitAdmin then
      some (.seatLimitExceeded "ADMIN_LIMIT_EXCEEDED" adminLimitMessage tierStr limitAdmin c
        "active_admins")
    else none
  else if inviteRole = "STAFF" then
    let maxStaff := getStaffLimitForTier tierStr
    let c := adjustedActiveCount s tenant.id u.id "STAFF"
    if c ≥ maxStaff then
      some (.seatLimitExceeded "STAFF_LIMIT_EXCEEDED" staffLimitMessage tierStr maxStaff c
        "active_staff")
    else none
  else none

/-- The validation phase of `accept_tenant_invitation`: every `raise`
before the first ORM mutation, in source order. On success it returns the
locked invitation row. -/
def acceptCheck (s : DBState) (u : User) (payload : AcceptPayload) (now : Int) :
    Except AcceptError Invitation :=
  if payload.acceptTos ≠ true then .error (.badRequest "accept_tos must be true")
  else
    let token := pyStrip payload.token
    if token = "" then .error (.badRequest "token is required")
    else
      match findInvitationByToken s token with
      | none => .error (.notFound "Invalid invitation token")
      | some inv =>
        if inv.acceptedAt ≠ none then .error (.conflict "Invitation already accepted")
        else if inv.expiresAt < now then .error (.badRequest "Invitation expired")
        else
          let inviteEmail := normalizeEmail inv.email
          let userEmail := normalizeEmail u.email
          if userEmail ≠ inviteEmail then
            .error (.emailMismatch "INVITE_EMAIL_MISMATCH" emailMismatchMessage
              inviteEmail userEmail)
          else
            let inviteRole := normalizeRole inv.role
            if inviteRole ∉ ALLOWED_INVITE_ROLES then
              .error (.badRequest "Invalid invitation role")
            else
              match findTenantById s inv.tenantId with
              | none => .error (.notFound "Tenant not found")
              | some tenant =>
                match seatLimitCheck s u tenant (resolveEffectiveTier tenant) inviteRole with
                | some e => .error e
                | none => .ok inv

/-- `select(TenantMembership).where(tenant_id, user_id).with_for_update()`. -/
def findMembership (s : DBState) (tenantId userId : Nat) : Option Membership :=
  s.memberships.find? (fun m => m.tenantId == tenantId && m.userId == userId)

/-- The membership row created when the acting user has no row yet
(the `TenantMembership(...)` constructor call of the handler). -/
def newMembership (inv : Invitation) (u : User) (payload : AcceptPayload)
    (inviteRole : String) : Membership :=
  { tenantId := inv.tenantId, userId := u.id, role := inviteRole,
    permissions := inv.permissions, acceptedTerms := true,
    notificationsOptIn := payload.acceptNotifications, isActive := true,
    referralCode := none }

/-- The in-place overwrite of an existing membership row (reactivation /
role overwrite branch of the handler). -/
def reactivateMembership (m : Membership) (inv : Invitation) (payload : AcceptPayload)
    (inviteRole : String) : Membership :=
  { m with
      isActive := true
      role := inviteRole
      permissions := inv.permissions
      acceptedTerms := true
      notificationsOptIn := payload.acceptNotifications }

/-- `inv.accepted_at = now; inv.accepted_by_user_id = current_user.id`. -/
def consumeInvitation (i : Invitation) (u : User) (now : Int) : Invitation :=
  { i with acceptedAt := some now, acceptedByUserId := some u.id }

/-- The mutation phase of `accept_tenant_invitation`: membership upsert
and invitation consumption, committed together. -/
def commitAccept (s : DBState) (inv : Invitation) (u : User) (payload : AcceptPayload)
    (now : Int) (inviteRole : String) : DBState :=
  let newMemberships :=
    match findMembership s inv.tenantId u.id with
    | none => s.memberships ++ [newMembership inv u payload inviteRole]
    | some _ =>
        s.memberships.map (fun m =>
          if m.tenantId == inv.tenantId && m.userId == u.id then
            reactivateMembership m inv payload inviteRole
          else m)
  let newInvitations :=
    s.invitations.map (fun i =>
      if i.token == inv.token then consumeInvitation i u now else i)
  { s with memberships := newMemberships, invitations := newInvitations }

/-- `accept_tenant_invitation`: the whole transaction. Raising an
`HTTPException` aborts the transaction, leaving the database unchanged;
on success the upsert and the invitation mutation are committed as one unit. -/
def accept (s : DBState) (u : User) (payload : AcceptPayload) (now : Int) :
    DBState × Except AcceptError AcceptResponse :=
  match acceptCheck s u payload now with
  | .error e => (s, .error e)
  | .ok inv =>
      (commitAccept s inv u payload now (normalizeRole inv.role),
       .ok { status := "ok", tenantId := inv.tenantId, userId := u.id,
             role := normalizeRole inv.role })

/-! ## Membership counting CRUD (`app/crud/tenant_membership.py`) -/

/-- `count_active_staff_memberships`. -/
def countActiveStaffMemberships (memberships : List Membership) (tenantId : Nat) : Nat :=
  (memberships.filter
    (fun m => m.tenantId == tenantId && m.isActive && m.role == "STAFF")).length

/-- `count_active_staff_memberships_excluding_user`. -/
def countActiveStaffMembershipsExcludingUser (memberships : List Membership)
    (tenantId excludeUserId : Nat) : Nat :=
  (memberships.filter
    (fun m => m.tenantId == tenantId && m.isActive && m.role == "STAFF"
      && m.userId != excludeUserId)).length

/-! ## RBAC permission checking (`app/auth/permissions.py`) -/

/-- `_normalize_role` of `app/auth/permissions.py`: `(role or "").strip().upper()`
(note: defaults to `""`, unlike the invitation module's `"STAFF"` default). -/
def permNormalizeRole (role : Option String) : String :=
  pyUpper (pyStrip (role.getD ""))

/-- `ROLE_BASE_PERMISSIONS` as a map from normalized role to base grant set. -/
def roleBasePermissions (role : String) : List String :=
  if role = "ADMIN" then
    ["tenant.*", "catalog.*", "publish.*", "ads.*", "inbox.*", "analytics.*",
     "attribution.*", "billing.*", "ai.*"]
  else if role = "MANAGER" then
    ["tenant.read", "tenant.members.read", "tenant.invites.manage", "catalog.*",
     "publish.*", "ads.*", "inbox.*", "analytics.*", "attribution.*", "ai.*",
     "billing.read"]
  else if role = "STAFF" then
    ["tenant.read", "catalog.read", "publish.read", "inbox.*", "analytics.read",
     "ai.read"]
  else []

/-- `_normalize_extras`: trim each extra grant and drop the empty ones. -/
def normalizeExtras (extra : List String) : List String :=
  (extra.map pyStrip).filter (fun p => p ≠ "")

/-- `effective_permissions`: base role grants plus membership extras (set union). -/
def effectivePermissions (role : Option String) (extra : List String) : List String :=
  let base := roleBasePermissions (permNormalizeRole role)
  let extras := normalizeExtras extra
  if extras = [] then base else base ++ extras

/-- `_has_domain_wildcard`: exact membership, else if the required string
has a `.` at index > 0, membership of `domain + ".*"` where `domain` is the
prefix up to the first `.` (Python `str.find` returns `-1` when absent,
modelled by the `none` branch). -/
def hasDomainWildcard (grants : List String) (required : String) : Bool :=
  if required ∈ grants then true
  else
    match required.toList.findIdx? (fun c => c == '.') with
    | none => false
    | some idx =>
        if idx = 0 then false
        else if (String.mk (required.toList.take idx) ++ ".*") ∈ grants then true
        else false

/-- `is_permitted`: OWNER always allowed; otherwise the wildcard rule. -/
def isPermitted (role : Option String) (grants : List String) (required : String) : Bool :=
  if permNormalizeRole role = "OWNER" then true
  else hasDomainWildcard grants required

/-! ## Concrete sample data (mirrors the scenarios of
`tests/test_tier_staff_limits.py`) -/

/-- A tenant on the `"sungura"` tier (staff cap 1). -/
def exTenant : Tenant := { id := 1, tier := "sungura" }

/-- A fresh STAFF invitation of `exTenant`, expiring at time 10. -/
def exInvitation : Invitation :=
  { id := 1, tenantId := 1, email := "invitee@example.com", role := some "STAFF",
    permissions := [], token := "tok1", expiresAt := 10, acceptedAt := none,
    acceptedByUserId := none }

/-- The invited user. -/
def exUser : User := { id := 5, email := "invitee@example.com" }

/-- The accept request for `exInvitation`. -/
def exPayload : AcceptPayload :=
  { token := "tok1", acceptTos := true, acceptNotifications := none }

/-- An active STAFF membership row of `exTenant` for a given user. -/
def exStaffRow (userId : Nat) : Membership :=
  { tenantId := 1, userId := userId, role := "STAFF", permissions := [],
    acceptedTerms := true, notificationsOptIn := none, isActive := true,
    referralCode := none }

/-- Database holding `exTenant`, `exInvitation` and no memberships. -/
def exState : DBState :=
  { tenants := [exTenant], invitations := [exInvitation], memberships := [] }

/-! ## Sequential-acceptance scenario (parametric, for claim C1) -/

/-- Tenant of the sequential scenario. -/
def c1Tenant (tid : Nat) (tier : String) : Tenant := { id := tid, tier := tier }

/-- The i-th fresh STAFF invitation of the sequential scenario. -/
def c1Inv (tid : Nat) (tok em : Nat → String) (i : Nat) : Invitation :=
  { id := i, tenantId := tid, email := em i, role := some "STAFF", permissions := [],
    token := tok i, expiresAt := 1, acceptedAt := none, acceptedByUserId := none }

/-- The i-th invitation after consumption at time 0 by user `uid i`. -/
def c1InvAcc (tid : Nat) (tok em : Nat → String) (uid : Nat → Nat) (i : Nat) : Invitation :=
  { c1Inv tid tok em i with acceptedAt := some 0, acceptedByUserId := some (uid i) }

/-- The STAFF membership created by the i-th successful acceptance. -/
def c1Mem (tid : Nat) (uid : Nat → Nat) (i : Nat) : Membership :=
  { tenantId := tid, userId := uid i, role := "STAFF", permissions := [],
    acceptedTerms := true, notificationsOptIn := none, isActive := true,
    referralCode := none }

/-- The i-th invited user. -/
def c1User (uid : Nat → Nat) (em : Nat → String) (i : Nat) : User :=
  { id := uid i, email := em i }

/-- The accept request presented by the i-th user. -/
def c1Payload (tok : Nat → String) (i : Nat) : AcceptPayload :=
  { token := tok i, acceptTos := true, acceptNotifications := none }

/-- Expected database state after the first `k` of `n` distinct invitations
have been accepted sequentially. -/
def c1ExpectedState (tid : Nat) (tier : String) (tok em : Nat → String) (uid : Nat → Nat)
    (n k : Nat) : DBState :=
  { tenants := [c1Tenant tid tier]
    invitations := (List.range n).map (fun i =>
      if i < k then c1InvAcc tid tok em uid i else c1Inv tid tok em i)
    memberships := (List.range k).map (c1Mem tid uid) }

/-- The database after running the first `k` acceptance requests in order
(an erroring request leaves the state unchanged, as its transaction aborts). -/
def c1Run (tid : Nat) (tier : String) (tok em : Nat → String) (uid : Nat → Nat)
    (n : Nat) : Nat → DBState
  | 0 => c1ExpectedState tid tier tok em uid n 0
  | k + 1 =>
      (accept (c1Run tid tier tok em uid n k) (c1User uid em k) (c1Payload tok k) 0).1

/-! ## Generic list helpers -/

/-- `find?` returns the element when it is the unique one satisfying the
predicate. -/
theorem find?_eq_some_of_unique {α : Type} {p : α → Bool} {a : α} :
    ∀ {l : List α}, a ∈ l → p a = true → (∀ b ∈ l, p b = true → b = a) →
      l.find? p = some a := by
  intro l
  induction l with
  | nil => intro h; cases h
  | cons x xs ih =>
    intro hmem hpa huniq
    by_cases hx : p x = true
    · have hxa : x = a := huniq x (List.mem_cons_self x xs) hx
      subst hxa
      exact List.find?_cons_of_pos _ hx
    · have hmem' : a ∈ xs := by
        rcases List.mem_cons.mp hmem with h | h
        · subst h; exact absurd hpa hx
        · exact h
      rw [List.find?_cons_of_neg _ hx]
      exact ih hmem' hpa (fun b hb hpb => huniq b (List.mem_cons_of_mem _ hb) hpb)

/-- `find?` only looks at the predicate's values. -/
theorem find?_congr_of_eq {α : Type} {p q : α → Bool} :
    ∀ {l : List α}, (∀ a ∈ l, p a = q a) → l.find? p = l.find? q := by
  intro l
  induction l with
  | nil => intro _; rfl
  | cons x xs ih =>
    intro h
    have hx := h x (List.mem_cons_self x xs)
    by_cases hp : p x = true
    · rw [List.find?_cons_of_pos _ hp, List.find?_cons_of_pos _ (hx ▸ hp)]
    · rw [List.find?_cons_of_neg _ hp, List.find?_cons_of_neg _ (fun hq => hp (hx ▸ hq))]
      exact ih (fun a ha => h a (List.mem_cons_of_mem _ ha))

/-! ## C7: the seat-cap lookup is fail-closed -/

/-- C7: `get_staff_limit_for_tier` returns the table entry for a known
(normalized) tier and the sungura cap otherwise (in particular for `None`);
that default is the minimum, and strictly below the maximum, of the known
staff caps; and `get_admin_limit_for_tier` is constantly 1. -/
theorem c7_tier_limits_fail_closed :
    (getStaffLimitForTier (some "sungura") = 1
      ∧ getStaffLimitForTier (some "swara") = 4
      ∧ getStaffLimitForTier (some "ndovu") = 9)
    ∧ (∀ t v, TIER_STAFF_LIMITS.lookup (normalizeTier t) = some v →
        getStaffLimitForTier t = v)
    ∧ (∀ t, TIER_STAFF_LIMITS.lookup (normalizeTier t) = none →
        getStaffLimitForTier t = getStaffLimitForTier (some "sungura"))
    ∧ getStaffLimitForTier none = 1
    ∧ (∀ v ∈ TIER_STAFF_LIMITS.map Prod.snd, getStaffLimitForTier none ≤ v)
    ∧ (∃ v ∈ TIER_STAFF_LIMITS.map Prod.snd, getStaffLimitForTier none < v)
    ∧ (∀ t, getAdminLimitForTier t = 1) := by
  refine ⟨by decide, ?_, ?_, by decide, by decide, by decide, fun t => rfl⟩
  · intro t v h
    unfold getStaffLimitForTier
    simp [h]
  · intro t h
    unfold getStaffLimitForTier
    simp [h]
    decide

/-- Closed witness for `c7_tier_limits_fail_closed`: the table rule at a
tier label that normalizes to `"swara"`, and the fail-closed default at an
unknown label. -/
theorem c7_tier_limits_fail_closed_witness :
    getStaffLimitForTier (some " SWARA ") = 4 ∧ getStaffLimitForTier (some "gold") = 1 :=
  ⟨c7_tier_limits_fail_closed.2.1 (some " SWARA ") 4 (by decide),
   (c7_tier_limits_fail_closed.2.2.1 (some "gold") (by decide)).trans (by decide)⟩

/-! ## C8: permission checking (set union + domain wildcard) -/

/-- C8: for a required permission with its first `.` at a positive index,
`is_permitted` over `effective_permissions` holds iff the role is OWNER,
or the required string is in the effective set, or the effective set
contains the domain wildcard `domain + ".*"`; for a required string with
no `.` or with a leading `.`, a non-OWNER is permitted only by exact
membership. -/
theorem c8_is_permitted_wildcard (role : Option String) (extra : List String)
    (required : String) :
    (∀ idx, required.toList.findIdx? (fun c => c == '.') = some idx → 0 < idx →
      (isPermitted role (effectivePermissions role extra) required = true ↔
        (permNormalizeRole role = "OWNER"
          ∨ required ∈ effectivePermissions role extra
          ∨ (String.mk (required.toList.take idx) ++ ".*") ∈ effectivePermissions role extra)))
    ∧ ((required.toList.findIdx? (fun c => c == '.') = none
          ∨ required.toList.findIdx? (fun c => c == '.') = some 0) →
        permNormalizeRole role ≠ "OWNER" →
        (isPermitted role (effectivePermissions role extra) required = true ↔
          required ∈ effectivePermissions role extra)) := by
  constructor
  · intro idx hidx hpos
    unfold isPermitted hasDomainWildcard
    by_cases how : permNormalizeRole role = "OWNER"
    · simp [how]
    · rw [if_neg how, hidx]
      by_cases hin : required ∈ effectivePermissions role extra
      · simp [hin, how]
      · have hidx0 : ¬(idx = 0) := by omega
        by_cases hw : (String.mk (required.toList.take idx) ++ ".*") ∈
            effectivePermissions role extra
        · simp [hin, how, hidx0, hw]
        · simp [hin, how, hidx0, hw]
  · intro hdot how
    unfold isPermitted hasDomainWildcard
    rw [if_neg how]
    rcases hdot with h | h <;> rw [h] <;>
      by_cases hin : required ∈ effectivePermissions role extra <;> simp [hin]

/-- Closed witness for `c8_is_permitted_wildcard`: STAFF's `"inbox.*"`
base grant allows `"inbox.assign"` via the wildcard rule, and a non-OWNER
required string without a dot is decided by exact membership. -/
theorem c8_is_permitted_wildcard_witness :
    isPermitted (some "STAFF") (effectivePermissions (some "STAFF") []) "inbox.assign" = true
    ∧ isPermitted (some "STAFF") (effectivePermissions (some "STAFF") []) "nodot" = false := by
  constructor
  · exact ((c8_is_permitted_wildcard (some "STAFF") [] "inbox.assign").1 5 (by decide)
      (by decide)).mpr (Or.inr (Or.inr (by decide)))
  · have h := (c8_is_permitted_wildcard (some "STAFF") [] "nodot").2 (Or.inl (by decide))
      (by decide)
    revert h
    decide

/-! ## C9: the engine's subtract-self count refines count-excluding-user -/

/-- Core counting identity: over any row list in which (tenant, user) pairs
are unique, "count rows matching the tenant/activity predicate, minus one
floored at zero when the acting user has such a row" equals "count rows
matching the predicate with the acting user's rows excluded".
`a1`/`a2` abstract the `is_active` and role tests. -/
theorem adjusted_count_aux {α : Type} (tidOf uidOf : α → Nat) (a1 a2 : α → Bool)
    (tid u : Nat) :
    ∀ l : List α,
      l.Pairwise (fun x y => ¬(tidOf x = tidOf y ∧ uidOf x = uidOf y)) →
      (if l.any (fun m => tidOf m == tid && uidOf m == u && a1 m && a2 m) then
        max 0 ((l.filter (fun m => tidOf m == tid && a1 m && a2 m)).length - 1)
      else (l.filter (fun m => tidOf m == tid && a1 m && a2 m)).length)
      = (l.filter (fun m => tidOf m == tid && a1 m && a2 m && uidOf m != u)).length := by
  intro l
  induction l with
  | nil => intro _; simp
  | cons m l ih =>
    intro hpw
    rcases List.pairwise_cons.mp hpw with ⟨hhead, hrest⟩
    have ihr := ih hrest
    by_cases hself : (tidOf m == tid && uidOf m == u && a1 m && a2 m) = true
    · -- the head row belongs to the acting user in this tenant
      have hatoms := hself
      simp only [Bool.and_eq_true, beq_iff_eq] at hatoms
      obtain ⟨⟨⟨htid, huid⟩, ha1⟩, ha2⟩ := hatoms
      have hall : (tidOf m == tid && a1 m && a2 m) = true := by
        simp [htid, ha1, ha2]
      have hneb : (uidOf m != u) = false := by simp [huid]
      have hfilters : l.filter (fun m => tidOf m == tid && a1 m && a2 m)
          = l.filter (fun m => tidOf m == tid && a1 m && a2 m && uidOf m != u) := by
        apply List.filter_congr
        intro b hb
        by_cases hb1 : (tidOf b == tid && a1 b && a2 b) = true
        · have hbatoms := hb1
          simp only [Bool.and_eq_true, beq_iff_eq] at hbatoms
          obtain ⟨⟨hbtid, hba1⟩, hba2⟩ := hbatoms
          have hbne : uidOf b ≠ u := by
            intro hbu
            exact hhead b hb ⟨htid.trans hbtid.symm, huid.trans hbu.symm⟩
          have hbne' : (uidOf b != u) = true := bne_iff_ne.mpr hbne
          simp [hb1, hbne']
        · simp only [Bool.not_eq_true] at hb1
          simp [hb1]
      simp [List.any_cons, List.filter_cons, hself, hall, hneb, hfilters]
    · have hselfb : (tidOf m == tid && uidOf m == u && a1 m && a2 m) = false :=
        Bool.not_eq_true _ ▸ hself
      by_cases hall : (tidOf m == tid && a1 m && a2 m) = true
      · -- the head row counts for the tenant but is not the acting user's
        have hatoms := hall
        simp only [Bool.and_eq_true, beq_iff_eq] at hatoms
        obtain ⟨⟨hbtid, hba1⟩, hba2⟩ := hatoms
        have hne : uidOf m ≠ u := by
          intro hu
          apply hself
          simp [hbtid, hu, hba1, hba2]
        have hne' : (uidOf m != u) = true := bne_iff_ne.mpr hne
        by_cases hany : l.any (fun m => tidOf m == tid && uidOf m == u && a1 m && a2 m) = true
        · -- the rest contains the acting user's row, so the tenant count is ≥ 1
          rcases List.any_eq_true.mp hany with ⟨x, hxmem, hx⟩
          have hxall : (tidOf x == tid && a1 x && a2 x) = true := by
            simp only [Bool.and_eq_true, beq_iff_eq] at hx
            obtain ⟨⟨⟨h1, _⟩, h3⟩, h4⟩ := hx
            simp [h1, h3, h4]
          have hpos : 0 < (l.filter (fun m => tidOf m == tid && a1 m && a2 m)).length :=
            List.length_pos.mpr (List.ne_nil_of_mem (List.mem_filter.mpr ⟨hxmem, hxall⟩))
          simp only [hany, if_true, Nat.zero_max] at ihr
          simp [List.any_cons, List.filter_cons, hselfb, hall, hne', hany]
          omega
        · simp only [Bool.not_eq_true] at hany
          simp only [hany, Bool.false_eq_true, if_false] at ihr
          simp [List.any_cons, List.filter_cons, hselfb, hall, hne', hany]
          omega
      · have hallb : (tidOf m == tid && a1 m && a2 m) = false :=
          Bool.not_eq_true _ ▸ hall
        have hexclb : (tidOf m == tid && a1 m && a2 m && uidOf m != u) = false := by
          simp [hallb]
        simp only [List.any_cons, List.filter_cons, hselfb, hallb, hexclb,
          Bool.false_or, Bool.false_eq_true, if_false]
        exact ihr

/-- C9: under uniqueness of (tenant, user) membership pairs, the
acceptance engine's count-then-subtract-self computation of active STAFF
seats equals `count_active_staff_memberships_excluding_user`. -/
theorem c9_adjusted_count_refines_exclusion (s : DBState) (tid u : Nat)
    (huniq : s.memberships.Pairwise
      (fun x y => ¬(x.tenantId = y.tenantId ∧ x.userId = y.userId))) :
    adjustedActiveCount s tid u "STAFF"
      = countActiveStaffMembershipsExcludingUser s.memberships tid u := by
  have h := adjusted_count_aux Membership.tenantId Membership.userId
    (fun m => m.isActive) (fun m => m.role == "STAFF") tid u s.memberships huniq
  exact h

/-- Closed witness for `c9_adjusted_count_refines_exclusion`: a tenant with
the acting user's active STAFF row and one other active STAFF row. -/
theorem c9_adjusted_count_refines_exclusion_witness :
    adjustedActiveCount
      { tenants := [], invitations := [],
        memberships :=
          [{ tenantId := 1, userId := 5, role := "STAFF", permissions := [],
             acceptedTerms := true, notificationsOptIn := none, isActive := true,
             referralCode := none },
           { tenantId := 1, userId := 9, role := "STAFF", permissions := [],
             acceptedTerms := true, notificationsOptIn := none, isActive := true,
             referralCode := none }] } 1 5 "STAFF" = 1 :=
  (c9_adjusted_count_refines_exclusion _ 1 5 (by decide)).trans (by decide)

/-! ## Structure lemmas about `accept` -/

/-- The endpoint surfaces exactly the validation-phase errors, with the
database untouched (the transaction aborts before any mutation). -/
theorem accept_snd_error_iff (s : DBState) (u : User) (p : AcceptPayload) (now : Int)
    (e : AcceptError) :
    (accept s u p now).2 = .error e ↔ acceptCheck s u p now = .error e := by
  unfold accept
  cases h : acceptCheck s u p now <;> simp

/-- A successful response comes from a successful validation phase. -/
theorem accept_snd_ok_inv (s : DBState) (u : User) (p : AcceptPayload) (now : Int)
    (r : AcceptResponse) (h : (accept s u p now).2 = .ok r) :
    ∃ inv, acceptCheck s u p now = .ok inv
      ∧ (accept s u p now).1 = commitAccept s inv u p now (normalizeRole inv.role)
      ∧ r = { status := "ok", tenantId := inv.tenantId, userId := u.id,
              role := normalizeRole inv.role } := by
  unfold accept at h ⊢
  cases hchk : acceptCheck s u p now with
  | error e => rw [hchk] at h; simp at h
  | ok inv =>
      rw [hchk] at h
      simp only [Except.ok.injEq] at h
      exact ⟨inv, rfl, rfl, h.symm⟩

/-- Inversion of a successful validation phase: every check of the source,
in order, passed. -/
theorem acceptCheck_ok_inversion {s : DBState} {u : User} {p : AcceptPayload} {now : Int}
    {inv : Invitation} (h : acceptCheck s u p now = .ok inv) :
    p.acceptTos = true
    ∧ pyStrip p.token ≠ ""
    ∧ findInvitationByToken s (pyStrip p.token) = some inv
    ∧ inv.acceptedAt = none
    ∧ ¬(inv.expiresAt < now)
    ∧ normalizeEmail u.email = normalizeEmail inv.email
    ∧ normalizeRole inv.role ∈ ALLOWED_INVITE_ROLES
    ∧ ∃ ten, findTenantById s inv.tenantId = some ten
        ∧ seatLimitCheck s u ten (resolveEffectiveTier ten) (normalizeRole inv.role) = none := by
  simp only [acceptCheck] at h
  split at h
  · simp at h
  next hA =>
  split at h
  · simp at h
  next hB =>
  split at h
  · simp at h
  next inv0 hfind =>
  split at h
  · simp at h
  next hC =>
  split at h
  · simp at h
  next hD =>
  split at h
  · simp at h
  next hE =>
  split at h
  · simp at h
  next hF =>
  split at h
  · simp at h
  next ten hten =>
  split at h
  · simp at h
  next hseat =>
  simp only [Except.ok.injEq] at h
  subst h
  refine ⟨not_not.mp hA, hB, hfind, not_not.mp hC, hD, not_not.mp hE, not_not.mp hF,
    ten, hten, hseat⟩

/-- Inversion of a seat-limit failure: it can only come from the
seat-limit check, with the invitation and tenant looked up first. -/
theorem acceptCheck_error_seatLimit {s : DBState} {u : User} {p : AcceptPayload} {now : Int}
    {code msg : String} {tier : Option String} {limit cnt : Nat} {fld : String}
    (h : acceptCheck s u p now
      = .error (.seatLimitExceeded code msg tier limit cnt fld)) :
    ∃ inv ten, findInvitationByToken s (pyStrip p.token) = some inv
      ∧ findTenantById s inv.tenantId = some ten
      ∧ seatLimitCheck s u ten (resolveEffectiveTier ten) (normalizeRole inv.role)
          = some (.seatLimitExceeded code msg tier limit cnt fld) := by
  simp only [acceptCheck] at h
  split at h
  · simp at h
  next hA =>
  split at h
  · simp at h
  next hB =>
  split at h
  · simp at h
  next inv0 hfind =>
  split at h
  · simp at h
  next hC =>
  split at h
  · simp at h
  next hD =>
  split at h
  · simp at h
  next hE =>
  split at h
  · simp at h
  next hF =>
  split at h
  · simp at h
  next ten hten =>
  split at h
  next e hseat =>
    simp only [Except.error.injEq] at h
    subst h
    exact ⟨inv0, ten, hfind, hten, hseat⟩
  · simp at h

/-! ## C4: fail-fast validation order -/

/-- C4: the seven validation failures of `accept_tenant_invitation` are
detected in source order, each returning its own error as soon as its check
fails, independently of all later state (email comparison and token
emptiness are on the trimmed, case-normalized values, as in the source). -/
theorem c4_validation_order (s : DBState) (u : User) (p : AcceptPayload) (now : Int) :
    (p.acceptTos = false →
      (accept s u p now).2 = .error (.badRequest "accept_tos must be true"))
    ∧ (p.acceptTos = true → pyStrip p.token = "" →
      (accept s u p now).2 = .error (.badRequest "token is required"))
    ∧ (p.acceptTos = true → pyStrip p.token ≠ "" →
      findInvitationByToken s (pyStrip p.token) = none →
      (accept s u p now).2 = .error (.notFound "Invalid invitation token"))
    ∧ (∀ inv t, p.acceptTos = true → pyStrip p.token ≠ "" →
      findInvitationByToken s (pyStrip p.token) = some inv →
      inv.acceptedAt = some t →
      (accept s u p now).2 = .error (.conflict "Invitation already accepted"))
    ∧ (∀ inv, p.acceptTos = true → pyStrip p.token ≠ "" →
      findInvitationByToken s (pyStrip p.token) = some inv →
      inv.acceptedAt = none → inv.expiresAt < now →
      (accept s u p now).2 = .error (.badRequest "Invitation expired"))
    ∧ (∀ inv, p.acceptTos = true → pyStrip p.token ≠ "" →
      findInvitationByToken s (pyStrip p.token) = some inv →
      inv.acceptedAt = none → ¬(inv.expiresAt < now) →
      normalizeEmail u.email ≠ normalizeEmail inv.email →
      (accept s u p now).2 = .error (.emailMismatch "INVITE_EMAIL_MISMATCH"
        emailMismatchMessage (normalizeEmail inv.email) (normalizeEmail u.email)))
    ∧ (∀ inv, p.acceptTos = true → pyStrip p.token ≠ "" →
      findInvitationByToken s (pyStrip p.token) = some inv →
      inv.acceptedAt = none → ¬(inv.expiresAt < now) →
      normalizeEmail u.email = normalizeEmail inv.email →
      normalizeRole inv.role ∉ ALLOWED_INVITE_ROLES →
      (accept s u p now).2 = .error (.badRequest "Invalid invitation role")) := by
  refine ⟨?_, ?_, ?_, ?_, ?_, ?_, ?_⟩
  · intro h1
    rw [accept_snd_error_iff]
    unfold acceptCheck
    simp [h1]
  · intro h1 h2
    rw [accept_snd_error_iff]
    unfold acceptCheck
    simp [h1, h2]
  · intro h1 h2 h3
    rw [accept_snd_error_iff]
    unfold acceptCheck
    simp [h1, h2, h3]
  · intro inv t h1 h2 h3 h4
    rw [accept_snd_error_iff]
    unfold acceptCheck
    simp [h1, h2, h3, h4]
  · intro inv h1 h2 h3 h4 h5
    rw [accept_snd_error_iff]
    unfold acceptCheck
    simp [h1, h2, h3, h4, h5]
  · intro inv h1 h2 h3 h4 h5 h6
    rw [accept_snd_error_iff]
    unfold acceptCheck
    simp [h1, h2, h3, h4, h5, h6]
  · intro inv h1 h2 h3 h4 h5 h6 h7
    rw [accept_snd_error_iff]
    unfold acceptCheck
    simp [h1, h2, h3, h4, h5, h6, h7]

/-- Closed witness for `c4_validation_order`: each of the seven fail-fast
branches fired on a concrete request against `exState`. -/
theorem c4_validation_order_witness :
    ((accept exState exUser { exPayload with acceptTos := false } 0).2
      = .error (.badRequest "accept_tos must be true"))
    ∧ ((accept exState exUser { exPayload with token := "  " } 0).2
      = .error (.badRequest "token is required"))
    ∧ ((accept exState exUser { exPayload with token := "missing" } 0).2
      = .error (.notFound "Invalid invitation token"))
    ∧ ((accept { exState with
          invitations := [{ exInvitation with acceptedAt := some 3 }] } exUser exPayload 0).2
      = .error (.conflict "Invitation already accepted"))
    ∧ ((accept exState exUser exPayload 11).2 = .error (.badRequest "Invitation expired"))
    ∧ ((accept exState { exUser with email := "other@example.com" } exPayload 0).2
      = .error (.emailMismatch "INVITE_EMAIL_MISMATCH" emailMismatchMessage
          "invitee@example.com" "other@example.com"))
    ∧ ((accept { exState with
          invitations := [{ exInvitation with role := some "OWNER" }] } exUser exPayload 0).2
      = .error (.badRequest "Invalid invitation role")) := by
  refine ⟨?_, ?_, ?_, ?_, ?_, ?_, ?_⟩
  · exact (c4_validation_order exState exUser { exPayload with acceptTos := false } 0).1 rfl
  · exact (c4_validation_order exState exUser { exPayload with token := "  " } 0).2.1 rfl
      (by decide)
  · exact (c4_validation_order exState exUser { exPayload with token := "missing" } 0).2.2.1
      rfl (by decide) (by decide)
  · exact (c4_validation_order { exState with
        invitations := [{ exInvitation with acceptedAt := some 3 }] } exUser exPayload
        0).2.2.2.1 { exInvitation with acceptedAt := some 3 } 3 rfl (by decide) (by decide) rfl
  · exact (c4_validation_order exState exUser exPayload 11).2.2.2.2.1 exInvitation rfl
      (by decide) (by decide) rfl (by decide)
  · exact (c4_validation_order exState { exUser with email := "other@example.com" }
      exPayload 0).2.2.2.2.2.1 exInvitation rfl (by decide) (by decide) rfl (by decide)
      (by decide)
  · exact (c4_validation_order { exState with
        invitations := [{ exInvitation with role := some "OWNER" }] } exUser exPayload
        0).2.2.2.2.2.2 { exInvitation with role := some "OWNER" } rfl (by decide) (by decide)
      rfl (by decide) (by decide) (by decide)

/-! ## C3: success implies the invitation was pending (with a `≥` boundary) -/

/-- C3 (amended): whenever `accept` succeeds, the invitation found under the
trimmed token had `accepted_at` null and `expires_at ≥ now` at the locked
read (the source rejects only `expires_at < now`, so the boundary
`expires_at = now` is accepted); and an invitation whose `expires_at` is
strictly in the past is never accepted, regardless of other state. -/
theorem c3_success_implies_pending :
    (∀ (s : DBState) (u : User) (p : AcceptPayload) (now : Int) (r : AcceptResponse),
      (accept s u p now).2 = .ok r →
      ∃ inv, findInvitationByToken s (pyStrip p.token) = some inv
        ∧ inv.acceptedAt = none ∧ now ≤ inv.expiresAt)
    ∧ (∀ (s : DBState) (u : User) (p : AcceptPayload) (now : Int) (inv : Invitation),
      findInvitationByToken s (pyStrip p.token) = some inv → inv.expiresAt < now →
      ∀ r, (accept s u p now).2 ≠ .ok r) := by
  constructor
  · intro s u p now r h
    obtain ⟨inv, hchk, -, -⟩ := accept_snd_ok_inv s u p now r h
    obtain ⟨-, -, hfind, hacc, hexp, -⟩ := acceptCheck_ok_inversion hchk
    exact ⟨inv, hfind, hacc, Int.not_lt.mp hexp⟩
  · intro s u p now inv hfind hexp r h
    obtain ⟨inv2, hchk, -, -⟩ := accept_snd_ok_inv s u p now r h
    obtain ⟨-, -, hfind2, -, hexp2, -⟩ := acceptCheck_ok_inversion hchk
    rw [hfind] at hfind2
    obtain rfl := Option.some.inj hfind2
    exact hexp2 hexp

/-- Closed witness for `c3_success_implies_pending`: the successful
acceptance of `exInvitation` yields a pending invitation at the read. -/
theorem c3_success_implies_pending_witness :
    ∃ inv, findInvitationByToken exState (pyStrip exPayload.token) = some inv
      ∧ inv.acceptedAt = none ∧ (0 : Int) ≤ inv.expiresAt :=
  c3_success_implies_pending.1 exState exUser exPayload 0
    { status := "ok", tenantId := 1, userId := 5, role := "STAFF" } (by decide)

/-- Counterexample to C3 as stated: at `now = 10` the invitation's
`expires_at = 10` is *not* in the future, yet acceptance succeeds — the
source only rejects `expires_at < now`, not `expires_at ≤ now`. -/
theorem c3_boundary_counterexample :
    (accept exState exUser exPayload 10).2
      = .ok { status := "ok", tenantId := 1, userId := 5, role := "STAFF" }
    ∧ ¬(10 < exInvitation.expiresAt) :=
  ⟨by decide, by decide⟩

/-! ## C5: an invitation token is single-use -/

/-- Consuming an invitation leaves it findable under the same token, now
carrying `accepted_at = now` and `accepted_by_user_id`. -/
theorem findInvitation_commitAccept (s : DBState) (inv : Invitation) (u : User)
    (p : AcceptPayload) (now : Int) (role : String) (t : String)
    (hfind : findInvitationByToken s t = some inv) :
    findInvitationByToken (commitAccept s inv u p now role) t
      = some (consumeInvitation inv u now) := by
  unfold findInvitationByToken at hfind ⊢
  unfold commitAccept
  simp only [List.find?_map]
  have hcong : s.invitations.find?
        ((fun i => i.token == t) ∘ (fun i =>
          if i.token == inv.token then consumeInvitation i u now else i))
      = s.invitations.find? (fun i => i.token == t) := by
    apply find?_congr_of_eq
    intro a _
    by_cases ha : a.token = inv.token <;> simp [ha, consumeInvitation]
  rw [hcong, hfind]
  simp

/-- C5: once an acceptance has succeeded, *every* further accept request
bearing the same (trimmed) token — from any user, at any time — fails; if
the request passes the ToS gate it fails precisely with the
`Conflict("Invitation already accepted")` error. -/
theorem c5_single_use (s : DBState) (u : User) (p : AcceptPayload) (now : Int)
    (s2 : DBState) (r : AcceptResponse) (h : accept s u p now = (s2, .ok r))
    (u2 : User) (p2 : AcceptPayload) (now2 : Int)
    (htok : pyStrip p2.token = pyStrip p.token) :
    (p2.acceptTos = true →
      (accept s2 u2 p2 now2).2 = .error (.conflict "Invitation already accepted"))
    ∧ ∀ r2, (accept s2 u2 p2 now2).2 ≠ .ok r2 := by
  have hsnd : (accept s u p now).2 = .ok r := by rw [h]
  have hfst : (accept s u p now).1 = s2 := by rw [h]
  obtain ⟨inv, hchk, hcommit, -⟩ := accept_snd_ok_inv s u p now r hsnd
  obtain ⟨-, hB, hfind, -, -, -, -, -⟩ := acceptCheck_ok_inversion hchk
  have hs2 : s2 = commitAccept s inv u p now (normalizeRole inv.role) := by
    rw [← hfst, hcommit]
  have hfind2 := findInvitation_commitAccept s inv u p now (normalizeRole inv.role)
    (pyStrip p.token) hfind
  subst hs2
  constructor
  · intro htos2
    rw [accept_snd_error_iff]
    simp [acceptCheck, htos2, htok, hB, hfind2, consumeInvitation]
  · intro r2 hok
    obtain ⟨inv2, hchk2, -, -⟩ := accept_snd_ok_inv _ _ _ _ _ hok
    obtain ⟨-, -, hfind2', hacc2, -⟩ := acceptCheck_ok_inversion hchk2
    rw [htok, hfind2] at hfind2'
    obtain rfl := Option.some.inj hfind2'
    simp [consumeInvitation] at hacc2

/-- Closed witness for `c5_single_use`: after the acceptance of
`exInvitation` commits, replaying the same token returns the conflict. -/
theorem c5_single_use_witness :
    (accept (accept exState exUser exPayload 0).1 exUser exPayload 1).2
      = .error (.conflict "Invitation already accepted") := by
  have h : accept exState exUser exPayload 0 =
      ((accept exState exUser exPayload 0).1,
        .ok { status := "ok", tenantId := 1, userId := 5, role := "STAFF" }) := by decide
  exact (c5_single_use exState exUser exPayload 0 _ _ h exUser exPayload 1 rfl).1 rfl

/-! ## C6: accept is atomic -/

/-- C6: on any error the transaction leaves both stores untouched; on
success the committed state carries, together, the consumed invitation
(`accepted_at = now`, `accepted_by_user_id = acting user`) and an active
membership of the invited role for the acting user. -/
theorem c6_atomicity (s : DBState) (u : User) (p : AcceptPayload) (now : Int) :
    (∀ e, (accept s u p now).2 = .error e → (accept s u p now).1 = s)
    ∧ (∀ r, (accept s u p now).2 = .ok r →
      ∃ inv, findInvitationByToken s (pyStrip p.token) = some inv
        ∧ inv.acceptedAt = none
        ∧ (∃ inv2 ∈ (accept s u p now).1.invitations,
            inv2.token = inv.token ∧ inv2.acceptedAt = some now
              ∧ inv2.acceptedByUserId = some u.id)
        ∧ (∃ m ∈ (accept s u p now).1.memberships,
            m.tenantId = inv.tenantId ∧ m.userId = u.id ∧ m.isActive = true
              ∧ m.role = r.role)) := by
  constructor
  · intro e he
    unfold accept at he ⊢
    cases hchk : acceptCheck s u p now with
    | error e2 => rfl
    | ok inv => rw [hchk] at he; simp at he
  · intro r h
    obtain ⟨inv, hchk, hcommit, hr⟩ := accept_snd_ok_inv s u p now r h
    obtain ⟨-, -, hfind, hacc, -, -, -, -⟩ := acceptCheck_ok_inversion hchk
    refine ⟨inv, hfind, hacc, ?_, ?_⟩
    · rw [hcommit]
      unfold commitAccept
      have hmem : inv ∈ s.invitations :=
        List.mem_of_find?_eq_some hfind
      refine ⟨consumeInvitation inv u now, ?_, rfl, rfl, rfl⟩
      have heq : consumeInvitation inv u now
          = (fun i => if i.token == inv.token then consumeInvitation i u now else i) inv := by
        simp
      rw [heq]
      exact List.mem_map_of_mem _ hmem
    · rw [hcommit]
      unfold commitAccept
      cases hfm : findMembership s inv.tenantId u.id with
      | none =>
          refine ⟨newMembership inv u p (normalizeRole inv.role), ?_, rfl, rfl, rfl,
            by subst hr; rfl⟩
          simp [hfm]
      | some m0 =>
          have hfm' : s.memberships.find?
              (fun m => m.tenantId == inv.tenantId && m.userId == u.id) = some m0 := hfm
          have hm0 : m0 ∈ s.memberships := List.mem_of_find?_eq_some hfm'
          have hp0 := List.find?_some hfm'
          simp only [Bool.and_eq_true, beq_iff_eq] at hp0
          refine ⟨reactivateMembership m0 inv p (normalizeRole inv.role), ?_,
            hp0.1, hp0.2, rfl, by subst hr; rfl⟩
          simp only [hfm]
          have heq : reactivateMembership m0 inv p (normalizeRole inv.role)
              = (fun m => if m.tenantId == inv.tenantId && m.userId == u.id then
                  reactivateMembership m inv p (normalizeRole inv.role)
                else m) m0 := by
            simp [hp0.1, hp0.2]
          rw [heq]
          exact List.mem_map_of_mem _ hm0

/-- Closed witness for `c6_atomicity`: a rejected request leaves `exState`
unchanged, and the successful acceptance commits both mutations. -/
theorem c6_atomicity_witness :
    ((accept exState exUser { exPayload with acceptTos := false } 0).1 = exState)
    ∧ (∃ inv, findInvitationByToken exState (pyStrip exPayload.token) = some inv
        ∧ inv.acceptedAt = none
        ∧ (∃ inv2 ∈ (accept exState exUser exPayload 0).1.invitations,
            inv2.token = inv.token ∧ inv2.acceptedAt = some 0
              ∧ inv2.acceptedByUserId = some 5)
        ∧ (∃ m ∈ (accept exState exUser exPayload 0).1.memberships,
            m.tenantId = inv.tenantId ∧ m.userId = 5 ∧ m.isActive = true
              ∧ m.role = "STAFF")) :=
  ⟨(c6_atomicity exState exUser { exPayload with acceptTos := false } 0).1
      (.badRequest "accept_tos must be true") (by decide),
   (c6_atomicity exState exUser exPayload 0).2
      { status := "ok", tenantId := 1, userId := 5, role := "STAFF" } (by decide)⟩

/-! ## C2: exclusion of self in the seat check -/

/-- An acting user holding an active row of the role contributes at least
one row to the tenant's active count of that role. -/
theorem countActiveRole_pos_of_hasActive {s : DBState} {tid uid : Nat} {role : String}
    (h : hasActiveRoleMembership s tid uid role = true) :
    1 ≤ countActiveRole s tid role := by
  unfold hasActiveRoleMembership at h
  unfold countActiveRole
  rcases List.any_eq_true.mp h with ⟨m, hm, hpm⟩
  simp only [Bool.and_eq_true, beq_iff_eq] at hpm
  obtain ⟨⟨⟨h1, -⟩, h3⟩, h4⟩ := hpm
  have hmem : m ∈ s.memberships.filter
      (fun m => m.tenantId == tid && m.isActive && m.role == role) :=
    List.mem_filter.mpr ⟨hm, by simp [h1, h3, h4]⟩
  have := List.length_pos.mpr (List.ne_nil_of_mem hmem)
  omega

/-- The STAFF seat check passes whenever the engine's adjusted count is
below the tier's staff cap. -/
theorem seatLimitCheck_staff_none (s : DBState) (u : User) (ten : Tenant)
    (tier : Option String)
    (hlt : adjustedActiveCount s ten.id u.id "STAFF" < getStaffLimitForTier tier) :
    seatLimitCheck s u ten tier "STAFF" = none := by
  unfold seatLimitCheck
  rw [if_neg (show ¬("STAFF" = "ADMIN") by decide), if_pos rfl]
  exact if_neg (by omega)

/-- C2 (amended): a user who already holds an active STAFF membership in
the invitation's tenant is never blocked by a seat-limit error when
accepting a STAFF invitation, *provided* the tenant's total active STAFF
count does not already exceed the tier cap; the engine's check counts
active STAFF memberships excluding the acting user (cf. C9). -/
theorem c2_reaccept_not_blocked (s : DBState) (u : User) (p : AcceptPayload) (now : Int)
    (inv : Invitation)
    (hfind : findInvitationByToken s (pyStrip p.token) = some inv)
    (hrole : normalizeRole inv.role = "STAFF")
    (hself : hasActiveRoleMembership s inv.tenantId u.id "STAFF" = true)
    (hcap : ∀ ten, findTenantById s inv.tenantId = some ten →
      countActiveRole s inv.tenantId "STAFF"
        ≤ getStaffLimitForTier (resolveEffectiveTier ten)) :
    ∀ code msg tier limit cnt fld,
      (accept s u p now).2 ≠ .error (.seatLimitExceeded code msg tier limit cnt fld) := by
  intro code msg tier limit cnt fld hcontra
  rw [accept_snd_error_iff] at hcontra
  obtain ⟨inv2, ten, hfind2, hten, hseat⟩ := acceptCheck_error_seatLimit hcontra
  rw [hfind] at hfind2
  obtain rfl := Option.some.inj hfind2
  have htenid : ten.id = inv.tenantId := by
    have hp := List.find?_some (p := fun (t : Tenant) => t.id == inv.tenantId)
      (by unfold findTenantById at hten; exact hten)
    exact beq_iff_eq.mp hp
  rw [hrole] at hseat
  have hadj : adjustedActiveCount s inv.tenantId u.id "STAFF"
      = countActiveRole s inv.tenantId "STAFF" - 1 := by
    simp [adjustedActiveCount, hself]
  have hcount := hcap ten hten
  have hone := countActiveRole_pos_of_hasActive hself
  have hlt : adjustedActiveCount s ten.id u.id "STAFF"
      < getStaffLimitForTier (resolveEffectiveTier ten) := by
    rw [htenid, hadj]
    omega
  rw [seatLimitCheck_staff_none s u ten (resolveEffectiveTier ten) hlt] at hseat
  simp at hseat

/-- Closed witness for `c2_reaccept_not_blocked`: the sole active STAFF
member of a full sungura tenant re-accepts without a seat-limit error. -/
theorem c2_reaccept_not_blocked_witness :
    (accept { exState with memberships := [exStaffRow 5] } exUser exPayload 0).2
      ≠ .error (.seatLimitExceeded "STAFF_LIMIT_EXCEEDED" staffLimitMessage
          (some "sungura") 1 1 "active_staff") :=
  c2_reaccept_not_blocked { exState with memberships := [exStaffRow 5] } exUser exPayload 0
    exInvitation (by decide) (by decide) (by decide)
    (fun ten hten => by
      have h := (show findTenantById { exState with memberships := [exStaffRow 5] }
          exInvitation.tenantId = some exTenant from rfl).symm.trans hten
      obtain rfl := Option.some.inj h
      decide)
    "STAFF_LIMIT_EXCEEDED" staffLimitMessage (some "sungura") 1 1 "active_staff"

/-- Counterexample to C2 as stated: the acting user holds an active STAFF
membership, but because a *second* active STAFF row fills the sungura cap
on its own, re-accepting fails with `SeatLimitExceeded` — the exclusion of
self does not make re-accept immune when the tenant is over-full. -/
theorem c2_overfull_counterexample :
    hasActiveRoleMembership { exState with memberships := [exStaffRow 5, exStaffRow 9] }
      exInvitation.tenantId exUser.id "STAFF" = true
    ∧ (accept { exState with memberships := [exStaffRow 5, exStaffRow 9] }
        exUser exPayload 0).2
      = .error (.seatLimitExceeded "STAFF_LIMIT_EXCEEDED" staffLimitMessage
          (some "sungura") 1 1 "active_staff") :=
  ⟨by decide, by decide⟩

/-! ## C10: null/empty roles normalize to STAFF; whitespace roles do not -/

/-- C10 (amended): an invitation whose stored role is `None` *or the empty
string* normalizes to `"STAFF"` and is admitted to the STAFF path: it is
subjected to the STAFF seat cap, and on success produces a STAFF
membership. A whitespace-only role, however, normalizes to `""` (Python's
`" " or "STAFF"` keeps `" "`), which is outside `{ADMIN, STAFF}` and is
rejected. -/
theorem c10_null_or_empty_role_is_staff :
    (∀ role : Option String, (role = none ∨ role = some "") →
      normalizeRole role = "STAFF" ∧ normalizeRole role ∈ ALLOWED_INVITE_ROLES)
    ∧ (normalizeRole (some " ") = "" ∧ "" ∉ ALLOWED_INVITE_ROLES)
    ∧ ((accept { exState with invitations := [{ exInvitation with role := none }] }
        exUser exPayload 0).2
      = .ok { status := "ok", tenantId := 1, userId := 5, role := "STAFF" })
    ∧ ((accept { exState with
          invitations := [{ exInvitation with role := none }],
          memberships := [exStaffRow 9] } exUser exPayload 0).2
      = .error (.seatLimitExceeded "STAFF_LIMIT_EXCEEDED" staffLimitMessage
          (some "sungura") 1 1 "active_staff")) := by
  refine ⟨?_, by decide, by decide, by decide⟩
  rintro role (rfl | rfl) <;> exact ⟨by decide, by decide⟩

/-- Closed witness for `c10_null_or_empty_role_is_staff`: the `None` role. -/
theorem c10_null_or_empty_role_is_staff_witness :
    normalizeRole none = "STAFF" ∧ normalizeRole none ∈ ALLOWED_INVITE_ROLES :=
  c10_null_or_empty_role_is_staff.1 none (Or.inl rfl)

/-- Counterexample to C10 as stated: a whitespace-only stored role *is*
rejected as an invalid role (it normalizes to `""`, not `"STAFF"`). -/
theorem c10_whitespace_role_counterexample :
    (∀ c ∈ (" ").toList, Char.isWhitespace c)
    ∧ (accept { exState with invitations := [{ exInvitation with role := some " " }] }
        exUser exPayload 0).2 = .error (.badRequest "Invalid invitation role") :=
  ⟨by decide, by decide⟩

/-! ## C1: sequential STAFF acceptances fill the cap, then the structured 403 -/

/-- Every invitation in the sequential scenario keeps its token, accepted
or not. -/
theorem c1_gtoken (tid : Nat) (tok em : Nat → String) (uid : Nat → Nat) (k j : Nat) :
    (if j < k then c1InvAcc tid tok em uid j else c1Inv tid tok em j).token = tok j := by
  by_cases h : j < k
  · rw [if_pos h]; rfl
  · rw [if_neg h]; rfl

/-- The locked token lookup at step `k` finds the k-th (still fresh)
invitation, by token uniqueness. -/
theorem c1_findInvitation (tid : Nat) (tier : String) (tok em : Nat → String)
    (uid : Nat → Nat) (n k : Nat) (hk : k < n)
    (htokinj : ∀ i, i < n → ∀ j, j < n → tok i = tok j → i = j) :
    findInvitationByToken (c1ExpectedState tid tier tok em uid n k) (tok k)
      = some (c1Inv tid tok em k) := by
  unfold findInvitationByToken c1ExpectedState
  apply find?_eq_some_of_unique
  · have heq : (if k < k then c1InvAcc tid tok em uid k else c1Inv tid tok em k)
        = c1Inv tid tok em k := if_neg (Nat.lt_irrefl k)
    rw [← heq]
    exact List.mem_map_of_mem _ (List.mem_range.mpr hk)
  · exact beq_iff_eq.mpr rfl
  · intro b hb hpb
    rcases List.mem_map.mp hb with ⟨j, hj, rfl⟩
    have hjn := List.mem_range.mp hj
    rw [c1_gtoken] at hpb
    have htokj : tok j = tok k := beq_iff_eq.mp hpb
    have hjk : j = k := htokinj j hjn k hk htokj
    subst hjk
    exact if_neg (Nat.lt_irrefl j)

/-- After `k` successful acceptances the tenant has exactly `k` active
STAFF memberships. -/
theorem c1_countActive (tid : Nat) (tier : String) (tok em : Nat → String)
    (uid : Nat → Nat) (n k : Nat) :
    countActiveRole (c1ExpectedState tid tier tok em uid n k) tid "STAFF" = k := by
  unfold countActiveRole
  show (((List.range k).map (c1Mem tid uid)).filter _).length = k
  have hall : ∀ m ∈ (List.range k).map (c1Mem tid uid),
      (m.tenantId == tid && m.isActive && m.role == "STAFF") = true := by
    intro m hm
    rcases List.mem_map.mp hm with ⟨j, hj, rfl⟩
    simp [c1Mem]
  rw [List.filter_eq_self.mpr hall, List.length_map, List.length_range]

/-- The k-th invited user holds no active STAFF membership yet. -/
theorem c1_hasActive_false (tid : Nat) (tier : String) (tok em : Nat → String)
    (uid : Nat → Nat) (n k : Nat) (hk : k < n)
    (huidinj : ∀ i, i < n → ∀ j, j < n → uid i = uid j → i = j) :
    hasActiveRoleMembership (c1ExpectedState tid tier tok em uid n k) tid (uid k) "STAFF"
      = false := by
  unfold hasActiveRoleMembership
  show ((List.range k).map (c1Mem tid uid)).any _ = false
  cases hany : ((List.range k).map (c1Mem tid uid)).any
      (fun m => m.tenantId == tid && m.userId == uid k && m.isActive && m.role == "STAFF") with
  | false => rfl
  | true =>
      exfalso
      rcases List.any_eq_true.mp hany with ⟨x, hx, hpx⟩
      rcases List.mem_map.mp hx with ⟨j, hj, rfl⟩
      have hjk := List.mem_range.mp hj
      simp only [c1Mem, Bool.and_eq_true, beq_iff_eq] at hpx
      exact Nat.ne_of_lt hjk (huidinj j (by omega) k hk hpx.1.1.2)

/-- The k-th invited user has no membership row at all yet. -/
theorem c1_findMembership_none (tid : Nat) (tier : String) (tok em : Nat → String)
    (uid : Nat → Nat) (n k : Nat) (hk : k < n)
    (huidinj : ∀ i, i < n → ∀ j, j < n → uid i = uid j → i = j) :
    findMembership (c1ExpectedState tid tier tok em uid n k) tid (uid k) = none := by
  unfold findMembership
  apply List.find?_eq_none.mpr
  intro m hm
  rcases List.mem_map.mp hm with ⟨j, hj, rfl⟩
  have hjk := List.mem_range.mp hj
  simp only [c1Mem, Bool.and_eq_true, beq_iff_eq, not_and]
  intro _ he
  exact Nat.ne_of_lt hjk (huidinj j (by omega) k hk he)

/-- The engine's adjusted active-STAFF count at step `k` is exactly `k`. -/
theorem c1_adjusted (tid : Nat) (tier : String) (tok em : Nat → String)
    (uid : Nat → Nat) (n k : Nat) (hk : k < n)
    (huidinj : ∀ i, i < n → ∀ j, j < n → uid i = uid j → i = j) :
    adjustedActiveCount (c1ExpectedState tid tier tok em uid n k) (c1Tenant tid tier).id
      (c1User uid em k).id "STAFF" = k := by
  show adjustedActiveCount (c1ExpectedState tid tier tok em uid n k) tid (uid k) "STAFF" = k
  unfold adjustedActiveCount
  rw [c1_hasActive_false tid tier tok em uid n k hk huidinj, c1_countActive]
  simp

/-- One step of the sequential scenario: with `k` seats taken, the k-th
acceptance succeeds iff `k` is below the staff cap; at the cap it fails
with the structured STAFF seat-limit error carrying the tier, the cap and
the current active-STAFF count. -/
theorem c1_step (tid : Nat) (tier : String) (tok em : Nat → String) (uid : Nat → Nat)
    (n k : Nat) (hk : k < n)
    (htok : ∀ i, i < n → pyStrip (tok i) = tok i ∧ tok i ≠ "")
    (htokinj : ∀ i, i < n → ∀ j, j < n → tok i = tok j → i = j)
    (huidinj : ∀ i, i < n → ∀ j, j < n → uid i = uid j → i = j) :
    accept (c1ExpectedState tid tier tok em uid n k) (c1User uid em k) (c1Payload tok k) 0
      = (if getStaffLimitForTier (resolveEffectiveTier (c1Tenant tid tier)) ≤ k then
          (c1ExpectedState tid tier tok em uid n k,
           .error (.seatLimitExceeded "STAFF_LIMIT_EXCEEDED" staffLimitMessage
             (resolveEffectiveTier (c1Tenant tid tier))
             (getStaffLimitForTier (resolveEffectiveTier (c1Tenant tid tier))) k
             "active_staff"))
        else
          (c1ExpectedState tid tier tok em uid n (k + 1),
           .ok { status := "ok", tenantId := tid, userId := uid k, role := "STAFF" })) := by
  have f1 : (c1Payload tok k).acceptTos = true := rfl
  have f2 : pyStrip (c1Payload tok k).token = tok k := (htok k hk).1
  have f3 : ¬(tok k = "") := (htok k hk).2
  have f4 := c1_findInvitation tid tier tok em uid n k hk htokinj
  have f5 : (c1Inv tid tok em k).acceptedAt = none := rfl
  have f6 : ¬((c1Inv tid tok em k).expiresAt < (0 : Int)) := by
    show ¬((1 : Int) < 0); decide
  have f7 : normalizeEmail (c1User uid em k).email = normalizeEmail (c1Inv tid tok em k).email :=
    rfl
  have f8 : normalizeRole (c1Inv tid tok em k).role = "STAFF" := by
    show normalizeRole (some "STAFF") = "STAFF"; decide
  have f9 : findTenantById (c1ExpectedState tid tier tok em uid n k)
      (c1Inv tid tok em k).tenantId = some (c1Tenant tid tier) := by
    show findTenantById _ tid = some _
    unfold findTenantById c1ExpectedState
    simp [c1Tenant]
  have hadj := c1_adjusted tid tier tok em uid n k hk huidinj
  by_cases hcase : getStaffLimitForTier (resolveEffectiveTier (c1Tenant tid tier)) ≤ k
  · -- the cap is filled: the structured seat-limit error fires
    have hseat : seatLimitCheck (c1ExpectedState tid tier tok em uid n k)
        (c1User uid em k) (c1Tenant tid tier)
        (resolveEffectiveTier (c1Tenant tid tier)) "STAFF"
        = some (.seatLimitExceeded "STAFF_LIMIT_EXCEEDED" staffLimitMessage
            (resolveEffectiveTier (c1Tenant tid tier))
            (getStaffLimitForTier (resolveEffectiveTier (c1Tenant tid tier))) k
            "active_staff") := by
      unfold seatLimitCheck
      rw [if_neg (show ¬("STAFF" = "ADMIN") by decide), if_pos rfl, hadj, if_pos hcase]
    have hchk : acceptCheck (c1ExpectedState tid tier tok em uid n k)
        (c1User uid em k) (c1Payload tok k) 0
        = .error (.seatLimitExceeded "STAFF_LIMIT_EXCEEDED" staffLimitMessage
            (resolveEffectiveTier (c1Tenant tid tier))
            (getStaffLimitForTier (resolveEffectiveTier (c1Tenant tid tier))) k
            "active_staff") := by
      simp [acceptCheck, ALLOWED_INVITE_ROLES, f1, f2, f3, f4, f5, f6, f7, f8, f9, hseat]
    rw [if_pos hcase]
    unfold accept
    rw [hchk]
  · -- a seat is free: the acceptance commits
    have hlt : adjustedActiveCount (c1ExpectedState tid tier tok em uid n k)
        (c1Tenant tid tier).id (c1User uid em k).id "STAFF"
        < getStaffLimitForTier (resolveEffectiveTier (c1Tenant tid tier)) := by
      rw [hadj]; omega
    have hseat := seatLimitCheck_staff_none (c1ExpectedState tid tier tok em uid n k)
      (c1User uid em k) (c1Tenant tid tier) (resolveEffectiveTier (c1Tenant tid tier)) hlt
    have hchk : acceptCheck (c1ExpectedState tid tier tok em uid n k)
        (c1User uid em k) (c1Payload tok k) 0 = .ok (c1Inv tid tok em k) := by
      simp [acceptCheck, ALLOWED_INVITE_ROLES, f1, f2, f3, f4, f5, f6, f7, f8, f9, hseat]
    have hfm : findMembership (c1ExpectedState tid tier tok em uid n k)
        (c1Inv tid tok em k).tenantId (c1User uid em k).id = none := by
      show findMembership _ tid (uid k) = none
      exact c1_findMembership_none tid tier tok em uid n k hk huidinj
    have hcommit : commitAccept (c1ExpectedState tid tier tok em uid n k)
        (c1Inv tid tok em k) (c1User uid em k) (c1Payload tok k) 0
        (normalizeRole (c1Inv tid tok em k).role)
        = c1ExpectedState tid tier tok em uid n (k + 1) := by
      rw [f8]
      have hproj_ten : (c1ExpectedState tid tier tok em uid n k).tenants
          = [c1Tenant tid tier] := rfl
      have hproj_inv : (c1ExpectedState tid tier tok em uid n k).invitations
          = (List.range n).map (fun i =>
              if i < k then c1InvAcc tid tok em uid i else c1Inv tid tok em i) := rfl
      have hproj_mem : (c1ExpectedState tid tier tok em uid n k).memberships
          = (List.range k).map (c1Mem tid uid) := rfl
      have hfm' : findMembership (c1ExpectedState tid tier tok em uid n k)
          (c1Inv tid tok em k).tenantId (c1User uid em k).id = none := hfm
      unfold commitAccept
      simp only [hfm', hproj_ten, hproj_inv, hproj_mem]
      unfold c1ExpectedState
      simp only [DBState.mk.injEq, true_and]
      refine ⟨?_, ?_⟩
      · -- invitations: marking the k-th token consumed is pointwise the
        -- expected list for k+1
        rw [List.map_map]
        apply List.map_congr_left
        intro j hj
        have hjn := List.mem_range.mp hj
        simp only [Function.comp]
        by_cases hjk : j = k
        · subst hjk
          rw [if_neg (Nat.lt_irrefl j), if_pos (beq_self_eq_true _),
            if_pos (Nat.lt_succ_self j)]
          rfl
        · have htne : ((if j < k then c1InvAcc tid tok em uid j else c1Inv tid tok em j).token
              == (c1Inv tid tok em k).token) = false := by
            rw [c1_gtoken]
            exact beq_eq_false_iff_ne.mpr (fun he => hjk (htokinj j hjn k hk he))
          rw [htne]
          simp only [Bool.false_eq_true, if_false]
          by_cases hjlt : j < k
          · rw [if_pos hjlt, if_pos (by omega)]
          · rw [if_neg hjlt, if_neg (by omega)]
      · -- memberships: the appended row is the k-th expected membership
        rw [List.range_succ, List.map_append]
        rfl
    rw [if_neg hcase]
    unfold accept
    rw [hchk]
    show (commitAccept (c1ExpectedState tid tier tok em uid n k) (c1Inv tid tok em k)
        (c1User uid em k) (c1Payload tok k) 0 (normalizeRole (c1Inv tid tok em k).role),
      (.ok { status := "ok", tenantId := (c1Inv tid tok em k).tenantId,
             userId := (c1User uid em k).id, role := normalizeRole (c1Inv tid tok em k).role }
        : Except AcceptError AcceptResponse))
      = (c1ExpectedState tid tier tok em uid n (k + 1),
         .ok { status := "ok", tenantId := tid, userId := uid k, role := "STAFF" })
    rw [hcommit, f8]
    rfl

/-- While the cap is not exceeded, running the sequential scenario reaches
exactly the expected state. -/
theorem c1_run_eq (tid : Nat) (tier : String) (tok em : Nat → String) (uid : Nat → Nat)
    (n : Nat)
    (htok : ∀ i, i < n → pyStrip (tok i) = tok i ∧ tok i ≠ "")
    (htokinj : ∀ i, i < n → ∀ j, j < n → tok i = tok j → i = j)
    (huidinj : ∀ i, i < n → ∀ j, j < n → uid i = uid j → i = j) :
    ∀ k, k ≤ getStaffLimitForTier (resolveEffectiveTier (c1Tenant tid tier)) → k ≤ n →
      c1Run tid tier tok em uid n k = c1ExpectedState tid tier tok em uid n k := by
  intro k
  induction k with
  | zero => intro _ _; rfl
  | succ k ih =>
      intro hk1 hk2
      have hr := ih (by omega) (by omega)
      show (accept (c1Run tid tier tok em uid n k) (c1User uid em k) (c1Payload tok k) 0).1 = _
      rw [hr, c1_step tid tier tok em uid n k (by omega) htok htokinj huidinj,
        if_neg (by omega)]

/-- C1: on a tenant of any tier with staff cap `C`, sequentially accepting
`C + 1` distinct fresh STAFF invitations by distinct new users succeeds for
the 1st through C-th acceptance, and the (C+1)-th fails with HTTP 403 and
the structured body `error = "STAFF_LIMIT_EXCEEDED"`, `tier` the resolved
tier, `limit = C` and `active_staff = C`, which equals the tenant's current
active STAFF count. -/
theorem c1_sequential_staff_cap (tid : Nat) (tier : String) (tok em : Nat → String)
    (uid : Nat → Nat) (C : Nat)
    (hC : C = getStaffLimitForTier (resolveEffectiveTier (c1Tenant tid tier)))
    (htok : ∀ i, i < C + 1 → pyStrip (tok i) = tok i ∧ tok i ≠ "")
    (htokinj : ∀ i, i < C + 1 → ∀ j, j < C + 1 → tok i = tok j → i = j)
    (huidinj : ∀ i, i < C + 1 → ∀ j, j < C + 1 → uid i = uid j → i = j) :
    (∀ k, k < C →
      (accept (c1Run tid tier tok em uid (C + 1) k) (c1User uid em k) (c1Payload tok k) 0).2
        = .ok { status := "ok", tenantId := tid, userId := uid k, role := "STAFF" })
    ∧ countActiveRole (c1Run tid tier tok em uid (C + 1) C) tid "STAFF" = C
    ∧ (accept (c1Run tid tier tok em uid (C + 1) C) (c1User uid em C) (c1Payload tok C) 0).2
        = .error (.seatLimitExceeded "STAFF_LIMIT_EXCEEDED" staffLimitMessage
            (resolveEffectiveTier (c1Tenant tid tier)) C C "active_staff")
    ∧ httpStatus (.seatLimitExceeded "STAFF_LIMIT_EXCEEDED" staffLimitMessage
        (resolveEffectiveTier (c1Tenant tid tier)) C C "active_staff") = 403 := by
  refine ⟨?_, ?_, ?_, rfl⟩
  · intro k hkC
    rw [c1_run_eq tid tier tok em uid (C + 1) htok htokinj huidinj k (by omega) (by omega),
      c1_step tid tier tok em uid (C + 1) k (by omega) htok htokinj huidinj,
      if_neg (by omega)]
  · rw [c1_run_eq tid tier tok em uid (C + 1) htok htokinj huidinj C (by omega) (by omega),
      c1_countActive]
  · rw [c1_run_eq tid tier tok em uid (C + 1) htok htokinj huidinj C (by omega) (by omega),
      c1_step tid tier tok em uid (C + 1) C (by omega) htok htokinj huidinj,
      if_pos (by omega), ← hC]

/-- Closed witness for `c1_sequential_staff_cap`: the concrete swara tenant
(cap 4) rejects the 5th sequential STAFF acceptance with the structured
403 body, and the 1st acceptance succeeds. -/
theorem c1_sequential_staff_cap_witness :
    ((accept (c1Run 1 "swara" (fun i => "t" ++ toString i) (fun _ => "u@x") (fun i => i) 5 0)
        (c1User (fun i => i) (fun _ => "u@x") 0)
        (c1Payload (fun i => "t" ++ toString i) 0) 0).2
      = .ok { status := "ok", tenantId := 1, userId := 0, role := "STAFF" })
    ∧ ((accept (c1Run 1 "swara" (fun i => "t" ++ toString i) (fun _ => "u@x") (fun i => i) 5 4)
        (c1User (fun i => i) (fun _ => "u@x") 4)
        (c1Payload (fun i => "t" ++ toString i) 4) 0).2
      = .error (.seatLimitExceeded "STAFF_LIMIT_EXCEEDED" staffLimitMessage (some "swara") 4 4
          "active_staff")) := by
  have h := c1_sequential_staff_cap 1 "swara" (fun i => "t" ++ toString i) (fun _ => "u@x")
    (fun i => i) 4 (by decide) (by decide) (by decide) (by decide)
  exact ⟨h.1 0 (by decide), h.2.2.1⟩

end Neema

